import Mathlib

/-!
Verification of the docwatch documentation-decay analyzer (jaimade/watch-docs).

This file shallowly embeds the data model and the operations of the Python
source under src/docwatch/ (models.py, matcher.py, analyzer.py, coverage.py,
serializer.py, graph.py, git/tracker.py) as executable Lean definitions and
proves or refutes the frozen specification claims about them.

Modelling conventions:
- Python `pathlib.Path` values are modelled by `PyPath`: an absolute flag plus
  the list of path components.  pathlib normalizes paths at construction
  (components never contain a slash, are never empty and never "."), which the
  predicate `WFPath` captures.  `resolve()` is modelled lexically (".."
  elimination against an ambient current working directory); symbolic links
  are out of scope.
- Python `float` confidences and percentages are modelled by `ℚ`.
- Python dicts keyed by strings are modelled by association lists; dict
  methods (`in`, lookup, insertion-order iteration) are modelled by the
  corresponding list operations.
- Fallible Python code (enum construction from a string value, attribute
  lookup) is modelled with `Option` / `Except`.
-/

namespace Docwatch

/-! ## Character-level string helpers (Python string semantics) -/

/-- Characters stripped by `DocReference.clean_text` (models.py line 285):
Python `text.strip` of backtick, single quote, double quote and both square
brackets.  The backtick is written via its code point to keep the source
plain. -/
def cleanStripSet : List Char := [Char.ofNat 96, '\'', '"', '[', ']']

/-- Model of Python `str.strip(chars)` on a character list: remove the
longest run of characters from `set` at both ends. -/
def stripCharsList (set : List Char) (l : List Char) : List Char :=
  ((l.dropWhile (fun c => c ∈ set)).reverse.dropWhile (fun c => c ∈ set)).reverse

/-- Model of Python `str.strip(chars)` on strings. -/
def pyStrip (set : List Char) (s : String) : String :=
  String.mk (stripCharsList set s.data)

/-- Model of Python `needle in hay` for strings (contiguous substring test). -/
def containsSub (needle hay : List Char) : Bool :=
  match hay with
  | [] => needle.isEmpty
  | _ :: rest => needle.isPrefixOf hay || containsSub needle rest

/-- Model of Python `a in b` at the `String` level. -/
def strIn (needle hay : String) : Bool :=
  containsSub needle.data hay.data

/-- Model of Python `a.startswith(b)`. -/
def strStartsWith (s pre : String) : Bool :=
  pre.data.isPrefixOf s.data

/-- Model of Python `clean_text.split(".")[-1]` (matcher.py line 140): the
segment after the last dot, or the whole string when no dot occurs. -/
def lastDotSegment (s : String) : String :=
  String.mk ((s.data.reverse.takeWhile (fun c => c ≠ '.')).reverse)

/-! ## Paths: model of `pathlib.Path` -/

/-- Model of a `pathlib.Path` value: whether it is absolute, plus its
components (pathlib's `parts` without the leading "/"). -/
structure PyPath where
  absolute : Bool
  comps : List String
deriving DecidableEq, Repr

/-- Invariant every real `pathlib.Path` satisfies: parts never contain a
slash, are never empty, and are never ".". -/
def WFPath (p : PyPath) : Prop :=
  ∀ c ∈ p.comps, c.data ≠ [] ∧ c.data ≠ ['.'] ∧ '/' ∉ c.data

instance (p : PyPath) : Decidable (WFPath p) := by
  unfold WFPath; infer_instance

/-- Join character-list components with slashes. -/
def joinSlash : List (List Char) → List Char
  | [] => []
  | [c] => c
  | c :: rest => c ++ '/' :: joinSlash rest

/-- Split a character list at slashes (Python `"…".split("/")`: always returns
at least one group). -/
def splitSlash : List Char → List (List Char)
  | [] => [[]]
  | c :: rest =>
    match splitSlash rest with
    | [] => [[]]
    | g :: gs => if c = '/' then [] :: g :: gs else (c :: g) :: gs

/-- Keep the groups pathlib keeps: drop empty components and ".". -/
def keepComp (c : List Char) : Bool :=
  ¬ (c = [] ∨ c = ['.'])

/-- Model of `str(path)` (pathlib rendering: "." for the empty relative
path, a leading slash for absolute paths). -/
def pathStr (p : PyPath) : String :=
  if p.absolute then
    String.mk ('/' :: joinSlash (p.comps.map String.data))
  else
    match p.comps with
    | [] => "."
    | _ => String.mk (joinSlash (p.comps.map String.data))

/-- Model of `pathlib.Path(s)` construction from a string: detect an
absolute path, split on slashes, drop empty and "." components. -/
def parsePath (s : String) : PyPath :=
  { absolute := s.data.head? == some '/'
    comps := ((splitSlash s.data).filter keepComp).map String.mk }

theorem splitSlash_ne_nil (l : List Char) : splitSlash l ≠ [] := by
  cases l with
  | nil => simp [splitSlash]
  | cons c rest =>
    show (match splitSlash rest with
      | [] => [[]]
      | g :: gs => if c = '/' then [] :: g :: gs else (c :: g) :: gs) ≠ []
    cases splitSlash rest with
    | nil => simp
    | cons g gs =>
      show (if c = '/' then [] :: g :: gs else (c :: g) :: gs) ≠ []
      split <;> simp

theorem splitSlash_no_slash (l : List Char) (h : '/' ∉ l) : splitSlash l = [l] := by
  induction l with
  | nil => rfl
  | cons c rest ih =>
    simp only [List.mem_cons, not_or] at h
    show (match splitSlash rest with
      | [] => [[]]
      | g :: gs => if c = '/' then [] :: g :: gs else (c :: g) :: gs) = [c :: rest]
    rw [ih h.2]
    simp [Ne.symm h.1]

theorem splitSlash_append (a t : List Char) (ha : '/' ∉ a) :
    splitSlash (a ++ '/' :: t) = a :: splitSlash t := by
  induction a with
  | nil =>
    show (match splitSlash t with
      | [] => [[]]
      | g :: gs => if '/' = '/' then [] :: g :: gs else ('/' :: g) :: gs) = [] :: splitSlash t
    cases h : splitSlash t with
    | nil => exact absurd h (splitSlash_ne_nil t)
    | cons g gs => simp
  | cons c a' ih =>
    simp only [List.mem_cons, not_or] at ha
    show (match splitSlash (a' ++ '/' :: t) with
      | [] => [[]]
      | g :: gs => if c = '/' then [] :: g :: gs else (c :: g) :: gs) =
        (c :: a') :: splitSlash t
    rw [ih ha.2]
    simp [Ne.symm ha.1]

theorem filter_splitSlash_join (ls : List (List Char))
    (h : ∀ l ∈ ls, l ≠ [] ∧ l ≠ ['.'] ∧ '/' ∉ l) :
    (splitSlash (joinSlash ls)).filter keepComp = ls := by
  induction ls with
  | nil => simp [joinSlash, splitSlash, keepComp]
  | cons c rest ih =>
    obtain ⟨hc1, hc2, hc3⟩ := h c (List.mem_cons_self c rest)
    cases rest with
    | nil =>
      simp only [joinSlash, splitSlash_no_slash c hc3]
      simp [keepComp, hc1, hc2]
    | cons d rest' =>
      have hjoin : joinSlash (c :: d :: rest') = c ++ '/' :: joinSlash (d :: rest') := rfl
      rw [hjoin, splitSlash_append c _ hc3]
      have := ih (fun l hl => h l (List.mem_cons_of_mem c hl))
      simp only [List.filter_cons, this]
      simp [keepComp, hc1, hc2]

theorem mk_data (s : String) : String.mk s.data = s := by
  cases s; rfl

theorem joinSlash_head (x : List Char) (xs : List (List Char)) (hx : x ≠ []) :
    (joinSlash (x :: xs)).head? = x.head? := by
  cases xs with
  | nil => rfl
  | cons y ys =>
    show (x ++ '/' :: joinSlash (y :: ys)).head? = x.head?
    cases x with
    | nil => exact absurd rfl hx
    | cons a as => rfl

theorem parsePath_pathStr (p : PyPath) (hp : WFPath p) : parsePath (pathStr p) = p := by
  obtain ⟨abs, comps⟩ := p
  have hwf : ∀ l ∈ comps.map String.data, l ≠ [] ∧ l ≠ ['.'] ∧ '/' ∉ l := by
    intro l hl
    obtain ⟨c, hc, rfl⟩ := List.mem_map.mp hl
    exact hp c hc
  have hmapmk : (comps.map String.data).map String.mk = comps := by
    rw [List.map_map]
    exact List.map_id'' (fun c => mk_data c) comps
  cases abs with
  | true =>
    show PyPath.mk ((pathStr ⟨true, comps⟩).data.head? == some '/')
      (((splitSlash (pathStr ⟨true, comps⟩).data).filter keepComp).map String.mk) =
        ⟨true, comps⟩
    have hdata : (pathStr ⟨true, comps⟩).data = '/' :: joinSlash (comps.map String.data) := rfl
    rw [hdata, PyPath.mk.injEq]
    refine ⟨by simp, ?_⟩
    have hsplit : splitSlash ('/' :: joinSlash (comps.map String.data)) =
        [] :: splitSlash (joinSlash (comps.map String.data)) := by
      have := splitSlash_append [] (joinSlash (comps.map String.data)) (by simp)
      simpa using this
    rw [hsplit, List.filter_cons]
    have hkeep : keepComp ([] : List Char) = false := by simp [keepComp]
    rw [hkeep]
    simp only [Bool.false_eq_true, if_false]
    rw [filter_splitSlash_join _ hwf, hmapmk]
  | false =>
    cases comps with
    | nil => decide
    | cons c rest =>
      obtain ⟨hc1, hc2, hc3⟩ := hp c (List.mem_cons_self c rest)
      show PyPath.mk ((pathStr ⟨false, c :: rest⟩).data.head? == some '/')
        (((splitSlash (pathStr ⟨false, c :: rest⟩).data).filter keepComp).map String.mk) =
          ⟨false, c :: rest⟩
      have hdata : (pathStr ⟨false, c :: rest⟩).data =
          joinSlash ((c :: rest).map String.data) := rfl
      rw [hdata, PyPath.mk.injEq]
      constructor
      · have hne : (joinSlash (c.data :: rest.map String.data)).head? ≠ some '/' := by
          rw [joinSlash_head c.data (rest.map String.data) hc1]
          intro hcon
          cases hd : c.data with
          | nil => exact hc1 hd
          | cons x xs =>
            rw [hd] at hcon
            simp only [List.head?_cons, Option.some.injEq] at hcon
            exact hc3 (by rw [hd, hcon]; exact List.mem_cons_self _ _)
        simp [hne]
      · rw [filter_splitSlash_join _ hwf, hmapmk]

/-! ## Enumerations (models.py) -/

/-- Supported programming languages (models.py `Language`). -/
inductive Language where
  | python | javascript | typescript | go | rust | java | php | ruby | unknown
deriving DecidableEq, Repr

/-- Serialized enum value (`Language.value`). -/
def languageValue : Language → String
  | .python => "python" | .javascript => "javascript" | .typescript => "typescript"
  | .go => "go" | .rust => "rust" | .java => "java" | .php => "php"
  | .ruby => "ruby" | .unknown => "unknown"

/-- Model of `Language(value)`: Python raises `ValueError` on an unknown
value, modelled by `none`. -/
def languageFromValue (s : String) : Option Language :=
  if s = "python" then some .python else if s = "javascript" then some .javascript
  else if s = "typescript" then some .typescript else if s = "go" then some .go
  else if s = "rust" then some .rust else if s = "java" then some .java
  else if s = "php" then some .php else if s = "ruby" then some .ruby
  else if s = "unknown" then some .unknown else none

/-- Supported documentation formats (models.py `DocFormat`). -/
inductive DocFormat where
  | markdown | rst | asciidoc | plain
deriving DecidableEq, Repr

def docFormatValue : DocFormat → String
  | .markdown => "markdown" | .rst => "restructuredtext"
  | .asciidoc => "asciidoc" | .plain => "plain"

def docFormatFromValue (s : String) : Option DocFormat :=
  if s = "markdown" then some .markdown
  else if s = "restructuredtext" then some .rst
  else if s = "asciidoc" then some .asciidoc
  else if s = "plain" then some .plain else none

/-- Types of code entities (models.py `EntityType`); `class_` and
`variable_` render the Python members CLASS and VARIABLE, whose names are
Lean keywords. -/
inductive EntityType where
  | function | class_ | method | variable_ | constant | module
deriving DecidableEq, Repr

def entityTypeValue : EntityType → String
  | .function => "function" | .class_ => "class" | .method => "method"
  | .variable_ => "variable" | .constant => "constant" | .module => "module"

def entityTypeFromValue (s : String) : Option EntityType :=
  if s = "function" then some .function else if s = "class" then some .class_
  else if s = "method" then some .method else if s = "variable" then some .variable_
  else if s = "constant" then some .constant else if s = "module" then some .module
  else none

/-- Types of documentation references (models.py `ReferenceType`). -/
inductive ReferenceType where
  | inline_code | code_block | link | header
deriving DecidableEq, Repr

def referenceTypeValue : ReferenceType → String
  | .inline_code => "inline_code" | .code_block => "code_block"
  | .link => "link" | .header => "header"

def referenceTypeFromValue (s : String) : Option ReferenceType :=
  if s = "inline_code" then some .inline_code
  else if s = "code_block" then some .code_block
  else if s = "link" then some .link
  else if s = "header" then some .header else none

/-- Types of code-doc links (models.py `LinkType`); `part` renders the
Python member PARTIAL. -/
inductive LinkType where
  | exact | qualified | part
deriving DecidableEq, Repr

def linkTypeValue : LinkType → String
  | .exact => "exact" | .qualified => "qualified" | .part => "partial"

def linkTypeFromValue (s : String) : Option LinkType :=
  if s = "exact" then some .exact
  else if s = "qualified" then some .qualified
  else if s = "partial" then some .part else none

/-! ## Module paths (models.py `file_path_to_module_path`) -/

/-- Source directory segments stripped from module paths, in the fixed
order of constants.SOURCE_DIR_PREFIXES. -/
def sourceDirs : List String := ["src", "lib", "source", "pkg", "packages", "app"]

/-- Model of pathlib `rfind` of a dot inside a file name. -/
def rfindDotPos (l : List Char) : Option Nat :=
  ((List.range l.length).filter (fun i => l.getD i ' ' = '.')).getLast?

/-- Model of `PurePath.stem` on a single file name: pathlib keeps the name
unchanged unless the last dot sits strictly inside the name. -/
def stemChars (name : List Char) : List Char :=
  match rfindDotPos name with
  | some i => if 0 < i ∧ i < name.length - 1 then name.take i else name
  | none => name

def strStem (s : String) : String := String.mk (stemChars s.data)

/-- Model of `Path.stem`: the stem of the last component ("" if none). -/
def pathStem (p : PyPath) : String :=
  match p.comps.getLast? with
  | some c => strStem c
  | none => ""

/-- Model of `file_path.with_suffix("").parts` (models.py line 59): pathlib
includes "/" as the first part of an absolute path, and the last component
loses its suffix. -/
def withSuffixParts (p : PyPath) : List String :=
  (if p.absolute then ["/"] else []) ++
  (match p.comps with
   | [] => []
   | _ => p.comps.dropLast ++ [strStem (p.comps.getLastD "")])

/-- Model of the prefix-stripping loop in models.py lines 62-65: the first
source-dir name (in `sourceDirs` order) occurring anywhere in the parts has
everything up to and including its first occurrence removed. -/
def stripSourceDirs (parts : List String) : List String :=
  match sourceDirs.find? (fun pre => parts.contains pre) with
  | some pre => parts.drop (parts.findIdx (fun x => x == pre) + 1)
  | none => parts

/-- Model of models.py `file_path_to_module_path`. -/
def file_path_to_module_path (p : PyPath) : String :=
  let parts := stripSourceDirs (withSuffixParts p)
  if parts ≠ [] then String.intercalate "." parts else pathStem p

/-! ## Data model structures (models.py) -/

/-- Model of models.py `Location`. -/
structure Location where
  file : PyPath
  line_start : Nat
  line_end : Option Nat := none
deriving DecidableEq, Repr

/-- Model of models.py `CodeEntity`. -/
structure CodeEntity where
  name : String
  entity_type : EntityType
  location : Location
  signature : Option String := none
  docstring : Option String := none
  parent : Option String := none
deriving DecidableEq, Repr

/-- Model of `CodeEntity.module_path`. -/
def module_path (e : CodeEntity) : String :=
  file_path_to_module_path e.location.file

/-- Model of `CodeEntity.qualified_name` (models.py lines 238-244). -/
def qualified_name (e : CodeEntity) : String :=
  match e.parent with
  | some par => module_path e ++ "." ++ par ++ "." ++ e.name
  | none => module_path e ++ "." ++ e.name

/-- Model of models.py `DocReference`. -/
structure DocReference where
  text : String
  location : Location
  reference_type : ReferenceType
  context : Option String := none
deriving DecidableEq, Repr

/-- Model of `DocReference.clean_text` (models.py line 285):
`self.text.strip` of backtick, quotes and square brackets. -/
def clean_text (r : DocReference) : String :=
  pyStrip cleanStripSet r.text

/-- Model of models.py `CodeDocLink`; the float confidence is modelled
exactly as a rational. -/
structure CodeDocLink where
  entity : CodeEntity
  reference : DocReference
  link_type : LinkType
  confidence : ℚ
deriving DecidableEq, Repr

/-- Model of an extracted header dict (models.py `HeaderInfo`). -/
structure HeaderInfo where
  level : Nat
  text : String
  line : Nat
deriving DecidableEq, Repr

/-- Model of models.py `CodeFile`. -/
structure CodeFile where
  path : PyPath
  language : Language
  entities : List CodeEntity := []
  imports : List String := []
deriving DecidableEq, Repr

/-- Model of models.py `DocFile`. -/
structure DocFile where
  path : PyPath
  format : DocFormat
  title : Option String := none
  references : List DocReference := []
  headers : List HeaderInfo := []
deriving DecidableEq, Repr

/-! ## Coverage statistics (coverage.py / analyzer.py `CoverageStats`) -/

/-- Model of `CoverageStats` (the dataclass is identical in coverage.py
lines 12-35 and analyzer.py lines 24-44). -/
structure CoverageStats where
  total_entities : Nat
  documented_entities : Nat
  total_references : Nat
  linked_references : Nat
deriving DecidableEq, Repr

/-- Model of `CoverageStats.undocumented_entities` (Python int
subtraction). -/
def undocumented_entities (s : CoverageStats) : ℤ :=
  (s.total_entities : ℤ) - (s.documented_entities : ℤ)

/-- Model of `CoverageStats.broken_references`. -/
def broken_references (s : CoverageStats) : ℤ :=
  (s.total_references : ℤ) - (s.linked_references : ℤ)

/-- Model of `CoverageStats.coverage_percent` (coverage.py lines 30-35,
analyzer.py lines 40-44). -/
def coverage_percent (s : CoverageStats) : ℚ :=
  if s.total_entities = 0 then 0
  else ((s.documented_entities : ℚ) / (s.total_entities : ℚ)) * 100

/-! ## Claim C5: clean_text stripping and whitespace -/

theorem head?_dropWhile (p : Char → Bool) (l : List Char) (c : Char)
    (h : (l.dropWhile p).head? = some c) : p c = false := by
  induction l with
  | nil => simp [List.dropWhile] at h
  | cons a rest ih =>
    rw [List.dropWhile_cons] at h
    by_cases hp : p a = true
    · rw [if_pos hp] at h
      exact ih h
    · rw [if_neg hp] at h
      simp only [List.head?_cons, Option.some.injEq] at h
      subst h
      exact Bool.eq_false_iff.mpr hp

theorem getLast?_dropWhile (p : Char → Bool) (l : List Char)
    (h : l.dropWhile p ≠ []) : (l.dropWhile p).getLast? = l.getLast? := by
  induction l with
  | nil => simp [List.dropWhile] at h
  | cons a rest ih =>
    rw [List.dropWhile_cons]
    rw [List.dropWhile_cons] at h
    by_cases hp : p a = true
    · rw [if_pos hp] at h ⊢
      rw [ih h]
      cases rest with
      | nil => simp [List.dropWhile] at h
      | cons b rs => exact List.getLast?_cons_cons.symm
    · rw [if_neg hp]

theorem stripCharsList_head (set l : List Char) (c : Char)
    (h : (stripCharsList set l).head? = some c) : c ∉ set := by
  unfold stripCharsList at h
  rw [List.head?_reverse] at h
  set Z := (l.dropWhile (fun c => decide (c ∈ set))).reverse with hZ
  have hne : Z.dropWhile (fun c => decide (c ∈ set)) ≠ [] := by
    intro hnil
    rw [hnil] at h
    simp at h
  rw [getLast?_dropWhile _ _ hne, hZ, List.getLast?_reverse] at h
  have := head?_dropWhile _ _ _ h
  simpa using this

theorem stripCharsList_getLast (set l : List Char) (c : Char)
    (h : (stripCharsList set l).getLast? = some c) : c ∉ set := by
  unfold stripCharsList at h
  rw [List.getLast?_reverse] at h
  have := head?_dropWhile _ _ _ h
  simpa using this

/-- Reference exhibiting the C5 counterexample: its raw text is " f "
(surrounded by spaces, none of the stripped characters). -/
def cFiveRef : DocReference :=
  { text := " f "
    location := { file := ⟨false, ["README.md"]⟩, line_start := 1 }
    reference_type := .inline_code }

/-- C5 counterexample: `clean_text` strips only backtick, quote and bracket
characters, so a reference whose text is " f " keeps its surrounding
whitespace, refuting the claim that clean_text never contains leading or
trailing whitespace. -/
theorem clean_text_whitespace_counterexample :
    clean_text cFiveRef = " f " ∧ (clean_text cFiveRef).data.head? = some ' ' := by
  constructor <;> decide

/-- C5 (amended): for every DocReference, clean_text is exactly the text
with outer backtick, single-quote, double-quote and square-bracket
characters removed; clean_text never begins or ends with one of those
stripped characters, but it may retain surrounding whitespace. -/
theorem clean_text_strips_formatting (r : DocReference) :
    clean_text r = pyStrip cleanStripSet r.text ∧
    (∀ c, (clean_text r).data.head? = some c → c ∉ cleanStripSet) ∧
    (∀ c, (clean_text r).data.getLast? = some c → c ∉ cleanStripSet) := by
  refine ⟨rfl, ?_, ?_⟩
  · intro c hc
    exact stripCharsList_head cleanStripSet r.text.data c hc
  · intro c hc
    exact stripCharsList_getLast cleanStripSet r.text.data c hc

/-- Witness for the amended C5 theorem at a concrete reference. -/
def cFiveWitnessRef : DocReference :=
  { text := "[area]"
    location := { file := ⟨false, ["README.md"]⟩, line_start := 2 }
    reference_type := .inline_code }

theorem clean_text_strips_formatting_witness :
    clean_text cFiveWitnessRef = pyStrip cleanStripSet "[area]" ∧
    ((clean_text cFiveWitnessRef).data.head? = some 'a' ∧ 'a' ∉ cleanStripSet) := by
  refine ⟨(clean_text_strips_formatting cFiveWitnessRef).1, by decide,
    (clean_text_strips_formatting cFiveWitnessRef).2.1 'a' (by decide)⟩

/-! ## Claim C6: module paths and qualified names -/

/-- Module path computed literally from the claim wording: drop the
extension, then strip leading segments belonging to the fixed prefix
list. -/
def modulePathSpecWorded (p : PyPath) : String :=
  let parts := (withSuffixParts p).dropWhile (fun x => sourceDirs.contains x)
  if parts ≠ [] then String.intercalate "." parts else pathStem p

/-- Path exhibiting the C6 counterexample: the listed segment "src" occurs
in a non-leading position. -/
def cSixPath : PyPath := ⟨false, ["mypkg", "src", "module.py"]⟩

/-- Entity located at that path. -/
def cSixEntity : CodeEntity :=
  { name := "f"
    entity_type := .function
    location := { file := cSixPath, line_start := 1 } }

/-- C6 counterexample: for mypkg/src/module.py the code removes everything
up to and including the non-leading segment "src" and yields "module", while
the claim (strip a leading listed segment) yields "mypkg.src.module"; the
qualified names differ accordingly. -/
theorem module_path_counterexample :
    file_path_to_module_path cSixPath = "module" ∧
    modulePathSpecWorded cSixPath = "mypkg.src.module" ∧
    qualified_name cSixEntity = "module.f" ∧
    qualified_name cSixEntity ≠ modulePathSpecWorded cSixPath ++ "." ++ "f" := by
  refine ⟨by decide, by decide, by decide, by decide⟩

/-- Independent formulation of the stripping rule actually implemented:
drop everything up to and including the first occurrence of the matched
segment. -/
def dropThroughFirst (pre : String) : List String → List String
  | [] => []
  | x :: xs => if x = pre then xs else dropThroughFirst pre xs

/-- The amended stripping rule: the first `sourceDirs` entry (in list
order) occurring anywhere among the parts has everything through its first
occurrence removed. -/
def stripSourceDirsSpec (parts : List String) : List String :=
  match sourceDirs.find? (fun pre => parts.contains pre) with
  | some pre => dropThroughFirst pre parts
  | none => parts

/-- Amended module-path function built from the amended stripping rule. -/
def modulePathAmended (p : PyPath) : String :=
  let parts := stripSourceDirsSpec (withSuffixParts p)
  if parts ≠ [] then String.intercalate "." parts else pathStem p

theorem drop_findIdx_eq_dropThroughFirst (pre : String) (parts : List String) :
    parts.drop (parts.findIdx (fun x => x == pre) + 1) = dropThroughFirst pre parts := by
  induction parts with
  | nil => simp [dropThroughFirst]
  | cons x xs ih =>
    rw [List.findIdx_cons]
    by_cases hx : x = pre
    · simp [dropThroughFirst, hx]
    · have hbeq : (x == pre) = false := beq_eq_false_iff_ne.mpr hx
      rw [hbeq]
      show xs.drop (xs.findIdx (fun x => x == pre) + 1) = dropThroughFirst pre (x :: xs)
      rw [ih]
      simp [dropThroughFirst, hx]

theorem stripSourceDirs_eq_spec (parts : List String) :
    stripSourceDirs parts = stripSourceDirsSpec parts := by
  unfold stripSourceDirs stripSourceDirsSpec
  cases sourceDirs.find? (fun pre => parts.contains pre) with
  | none => rfl
  | some pre => exact drop_findIdx_eq_dropThroughFirst pre parts

/-- C6 (amended): every entity's qualified name is
module_path ++ "." ++ (parent ++ ".")? ++ name, where the module path drops
the extension and removes everything up to and including the first
occurrence (searching the fixed list src, lib, source, pkg, packages, app
in order) of a listed segment anywhere among the path segments — not only
a leading one; if nothing remains, the extension-free file name is used. -/
theorem qualified_name_structure (e : CodeEntity) :
    qualified_name e =
      modulePathAmended e.location.file ++ "." ++
        (match e.parent with
         | some par => par ++ "."
         | none => "") ++ e.name := by
  have hmp : module_path e = modulePathAmended e.location.file := by
    unfold module_path file_path_to_module_path modulePathAmended
    rw [stripSourceDirs_eq_spec]
  unfold qualified_name
  cases e.parent with
  | none => rw [hmp]; simp
  | some par =>
    rw [hmp]
    simp [String.append_assoc]

/-! ## Claim C3: coverage_percent zero characterization -/

/-- Stats exhibiting the C3 counterexample: one entity, none documented. -/
def cThreeStats : CoverageStats :=
  { total_entities := 1, documented_entities := 0
    total_references := 0, linked_references := 0 }

/-- C3 counterexample: with one entity and zero documented entities,
coverage_percent is 0.0 although total_entities is nonzero, refuting the
claimed equivalence. -/
theorem coverage_percent_zero_counterexample :
    coverage_percent cThreeStats = 0 ∧ cThreeStats.total_entities ≠ 0 := by
  constructor
  · unfold coverage_percent cThreeStats
    norm_num
  · decide

/-- C3 (amended): coverage_percent is 0.0 iff total_entities is 0 or
documented_entities is 0; when total_entities is nonzero it equals
100 · documented / total. -/
theorem coverage_percent_zero_iff :
    (∀ s : CoverageStats, coverage_percent s = 0 ↔
      (s.total_entities = 0 ∨ s.documented_entities = 0)) ∧
    (∀ s : CoverageStats, s.total_entities ≠ 0 →
      coverage_percent s =
        ((s.documented_entities : ℚ) / (s.total_entities : ℚ)) * 100) := by
  constructor
  · intro s
    unfold coverage_percent
    by_cases h : s.total_entities = 0
    · simp [h]
    · rw [if_neg h]
      rw [mul_eq_zero, div_eq_zero_iff]
      simp [Nat.cast_eq_zero, h]
  · intro s h
    unfold coverage_percent
    rw [if_neg h]

/-- Stats used to witness the amended C3 theorem. -/
def cThreeWitnessStats : CoverageStats :=
  { total_entities := 2, documented_entities := 1
    total_references := 0, linked_references := 0 }

theorem coverage_percent_zero_iff_witness :
    cThreeWitnessStats.total_entities ≠ 0 ∧ coverage_percent cThreeWitnessStats = 50 := by
  refine ⟨by decide, ?_⟩
  rw [coverage_percent_zero_iff.2 cThreeWitnessStats (by decide)]
  norm_num [cThreeWitnessStats]

/-! ## Claim C1: reference matching (analyzer.py `_match_reference`,
identical algorithm and constants in matcher.py `ReferenceMatcher.match`) -/

/-- Model of `clean_text in self._entity_index` / dict lookup: the entity
index maps entity names to the entities carrying that name. -/
def lookupIndex (idx : List (String × List CodeEntity)) (k : String) :
    Option (List CodeEntity) :=
  (idx.find? (fun nv => nv.1 == k)).map (fun nv => nv.2)

/-- Model of the code-block confidence multiplier (analyzer.py line 140;
CONFIDENCE_CODE_BLOCK_PENALTY = 0.6 in matcher.py). -/
def multiplierOf (r : DocReference) : ℚ :=
  if r.reference_type = ReferenceType.code_block then 6/10 else 1

/-- Model of the qualified-match branch (analyzer.py lines 149-160). -/
def qualifiedMatches (idx : List (String × List CodeEntity)) (ct : String)
    (mult : ℚ) : List (CodeEntity × LinkType × ℚ) :=
  if ct.data.contains '.' then
    match lookupIndex idx (lastDotSegment ct) with
    | some ents =>
      ents.flatMap (fun e =>
        if strIn ct (qualified_name e) then [(e, LinkType.qualified, 9/10 * mult)]
        else [(e, LinkType.part, 7/10 * mult)])
    | none => []
  else []

/-- Model of the substring-match branch (analyzer.py lines 162-168). -/
def substrMatches (idx : List (String × List CodeEntity)) (ct : String)
    (mult : ℚ) : List (CodeEntity × LinkType × ℚ) :=
  idx.flatMap (fun nv =>
    if 3 ≤ ct.length ∧ (strIn ct nv.1 ∨ strIn nv.1 ct) then
      nv.2.map (fun e => (e, LinkType.part, 1/2 * mult))
    else [])

/-- Model of analyzer.py `_match_reference` (lines 126-170): exact lookup
returns immediately; otherwise qualified matches, then substring matches
only if nothing matched so far. -/
def matchReference (idx : List (String × List CodeEntity)) (r : DocReference) :
    List (CodeEntity × LinkType × ℚ) :=
  match lookupIndex idx (clean_text r) with
  | some ents => ents.map (fun e => (e, LinkType.exact, 1 * multiplierOf r))
  | none =>
    qualifiedMatches idx (clean_text r) (multiplierOf r) ++
      (if qualifiedMatches idx (clean_text r) (multiplierOf r) = [] then
        substrMatches idx (clean_text r) (multiplierOf r)
      else [])

theorem mem_qualifiedMatches_linkType {idx : List (String × List CodeEntity)}
    {ct : String} {mult : ℚ} {e : CodeEntity} {t : LinkType} {c : ℚ}
    (h : (e, t, c) ∈ qualifiedMatches idx ct mult) :
    t = LinkType.qualified ∨ t = LinkType.part := by
  unfold qualifiedMatches at h
  split at h
  · cases hlk : lookupIndex idx (lastDotSegment ct) with
    | none => rw [hlk] at h; simp at h
    | some ents =>
      rw [hlk] at h
      obtain ⟨a, _, ha⟩ := List.mem_flatMap.mp h
      split at ha
      · have h2 := List.mem_singleton.mp ha
        exact Or.inl (congrArg (fun x => x.2.1) h2)
      · have h2 := List.mem_singleton.mp ha
        exact Or.inr (congrArg (fun x => x.2.1) h2)
  · simp at h

theorem mem_substrMatches_linkType {idx : List (String × List CodeEntity)}
    {ct : String} {mult : ℚ} {e : CodeEntity} {t : LinkType} {c : ℚ}
    (h : (e, t, c) ∈ substrMatches idx ct mult) : t = LinkType.part := by
  unfold substrMatches at h
  obtain ⟨nv, _, hnv⟩ := List.mem_flatMap.mp h
  split at hnv
  · obtain ⟨a, _, ha⟩ := List.mem_map.mp hnv
    exact congrArg (fun x => x.2.1) ha.symm
  · simp at hnv

/-- C1: if clean_text is a key of the entity-name index, the matcher
returns exactly the entities stored there, each as an EXACT link with
confidence 1.0 times the base multiplier (0.6 for code_block references,
1.0 otherwise), and performs no qualified or substring matching; moreover
every EXACT link produced by the matcher has confidence 1.0 or 0.6. -/
theorem exact_match_short_circuit :
    (∀ (idx : List (String × List CodeEntity)) (r : DocReference)
      (ents : List CodeEntity), lookupIndex idx (clean_text r) = some ents →
        matchReference idx r =
          ents.map (fun e => (e, LinkType.exact, 1 * multiplierOf r))) ∧
    (∀ (idx : List (String × List CodeEntity)) (r : DocReference)
      (e : CodeEntity) (t : LinkType) (c : ℚ),
        (e, t, c) ∈ matchReference idx r → t = LinkType.exact →
          c = 1 ∨ c = 6/10) := by
  constructor
  · intro idx r ents h
    unfold matchReference
    rw [h]
  · intro idx r e t c hmem ht
    unfold matchReference at hmem
    cases hlk : lookupIndex idx (clean_text r) with
    | some ents =>
      rw [hlk] at hmem
      obtain ⟨a, _, ha⟩ := List.mem_map.mp hmem
      have hc : c = 1 * multiplierOf r := congrArg (fun x => x.2.2) ha.symm
      rw [hc]
      unfold multiplierOf
      split
      · right; norm_num
      · left; norm_num
    | none =>
      rw [hlk] at hmem
      simp only at hmem
      rcases List.mem_append.mp hmem with hq | hp
      · rcases mem_qualifiedMatches_linkType hq with h1 | h1 <;> rw [ht] at h1 <;>
          exact absurd h1.symm (by decide)
      · split at hp
        · have := mem_substrMatches_linkType hp
          rw [ht] at this
          exact absurd this.symm (by decide)
        · simp at hp

/-- Entity and index used to witness C1. -/
def cOneEntity : CodeEntity :=
  { name := "process_data"
    entity_type := .function
    location := { file := ⟨false, ["test.py"]⟩, line_start := 1 } }

def cOneIndex : List (String × List CodeEntity) := [("process_data", [cOneEntity])]

def cOneRef : DocReference :=
  { text := "process_data"
    location := { file := ⟨false, ["README.md"]⟩, line_start := 1 }
    reference_type := .inline_code }

theorem exact_match_short_circuit_witness :
    lookupIndex cOneIndex (clean_text cOneRef) = some [cOneEntity] ∧
    matchReference cOneIndex cOneRef =
      [(cOneEntity, LinkType.exact, 1 * multiplierOf cOneRef)] ∧
    ((cOneEntity, LinkType.exact, (1 : ℚ) * multiplierOf cOneRef) ∈
        matchReference cOneIndex cOneRef) ∧
    ((1 : ℚ) * multiplierOf cOneRef = 1 ∨ (1 : ℚ) * multiplierOf cOneRef = 6/10) := by
  have h1 : lookupIndex cOneIndex (clean_text cOneRef) = some [cOneEntity] := by decide
  have h2 := exact_match_short_circuit.1 cOneIndex cOneRef [cOneEntity] h1
  have h3 : (cOneEntity, LinkType.exact, (1 : ℚ) * multiplierOf cOneRef) ∈
      matchReference cOneIndex cOneRef := by
    rw [h2]; simp
  exact ⟨h1, h2, h3,
    exact_match_short_circuit.2 cOneIndex cOneRef cOneEntity LinkType.exact _ h3 rfl⟩

/-! ## Claim C4: per-file coverage -/

/-- Model of the documented-name set `{link.entity.qualified_name}`
(coverage.py line 69, analyzer.py line 243); a list models the Python set,
used only through membership. -/
def documentedNames (links : List CodeDocLink) : List String :=
  links.map (fun l => qualified_name l.entity)

/-- Model of Python `round(x, 2)` on the rational model of floats: round
half to even at the second decimal. -/
def roundHalfEven (q : ℚ) : ℤ :=
  if q - ⌊q⌋ = 1/2 then (if ⌊q⌋ % 2 = 0 then ⌊q⌋ else ⌊q⌋ + 1) else round q

def round2 (q : ℚ) : ℚ := (roundHalfEven (q * 100) : ℚ) / 100

/-- Count of a file's entities whose qualified name is documented. -/
def countDocumented (cf : CodeFile) (docNames : List String) : Nat :=
  (cf.entities.filter (fun e => docNames.contains (qualified_name e))).length

/-- Per-file percentage `round(documented/len(entities)*100, 2)`. -/
def coverageValue (cf : CodeFile) (docNames : List String) : ℚ :=
  round2 (((countDocumented cf docNames : ℚ) / (cf.entities.length : ℚ)) * 100)

/-- Model of coverage.py `CoverageCalculator.get_coverage_by_file` (lines
112-137): files with no entities are skipped. -/
def get_coverage_by_file_calc (cfs : List CodeFile) (links : List CodeDocLink) :
    List (String × ℚ) :=
  cfs.filterMap (fun cf =>
    if cf.entities = [] then none
    else some (pathStr cf.path, coverageValue cf (documentedNames links)))

/-- Model of analyzer.py `DocumentationAnalyzer.get_coverage_by_file`
(lines 235-258): files with no entities are assigned 100.0. -/
def get_coverage_by_file_analyzer (cfs : List CodeFile) (links : List CodeDocLink) :
    List (String × ℚ) :=
  cfs.map (fun cf =>
    if cf.entities = [] then (pathStr cf.path, (100 : ℚ))
    else (pathStr cf.path, coverageValue cf (documentedNames links)))

/-- Code file exhibiting the C4 counterexample: no entities. -/
def cFourFile : CodeFile := { path := ⟨false, ["empty.py"]⟩, language := .python }

/-- C4 counterexample: DocumentationAnalyzer.get_coverage_by_file maps a
zero-entity code file to 100.0, so its key is present, refuting the claim
that the per-file coverage map contains no key for such files (the
analyzer's own test suite asserts the 100.0 behaviour). -/
theorem coverage_by_file_counterexample :
    cFourFile.entities = [] ∧
    (get_coverage_by_file_analyzer [cFourFile] []).map Prod.fst =
      [pathStr cFourFile.path] ∧
    (pathStr cFourFile.path, (100 : ℚ)) ∈ get_coverage_by_file_analyzer [cFourFile] [] := by
  refine ⟨by decide, by decide, by decide⟩

/-- C4 (amended): CoverageCalculator.get_coverage_by_file has exactly the
paths of code files with at least one entity as keys — no key for a
zero-entity file — whereas DocumentationAnalyzer.get_coverage_by_file has
every code file's path as a key, assigning 100.0 to zero-entity files. -/
theorem coverage_by_file_keys (cfs : List CodeFile) (links : List CodeDocLink)
    (p : String) :
    ((p ∈ (get_coverage_by_file_calc cfs links).map Prod.fst) ↔
      ∃ cf ∈ cfs, pathStr cf.path = p ∧ cf.entities ≠ []) ∧
    ((p ∈ (get_coverage_by_file_analyzer cfs links).map Prod.fst) ↔
      ∃ cf ∈ cfs, pathStr cf.path = p) := by
  constructor
  · simp only [List.mem_map, List.mem_filterMap, get_coverage_by_file_calc]
    constructor
    · rintro ⟨pair, ⟨cf, hcf, hf⟩, hfst⟩
      by_cases hne : cf.entities = []
      · rw [if_pos hne] at hf
        exact absurd hf (by simp)
      · rw [if_neg hne] at hf
        refine ⟨cf, hcf, ?_, hne⟩
        rw [← hfst, ← Option.some_inj.mp hf]
    · rintro ⟨cf, hcf, hp, hne⟩
      exact ⟨(pathStr cf.path, coverageValue cf (documentedNames links)),
        ⟨cf, hcf, by rw [if_neg hne]⟩, hp⟩
  · simp only [List.mem_map, get_coverage_by_file_analyzer]
    constructor
    · rintro ⟨pair, ⟨cf, hcf, hf⟩, hfst⟩
      refine ⟨cf, hcf, ?_⟩
      by_cases hne : cf.entities = []
      · rw [if_pos hne] at hf
        rw [← hfst, ← hf]
      · rw [if_neg hne] at hf
        rw [← hfst, ← hf]
    · rintro ⟨cf, hcf, hp⟩
      by_cases hne : cf.entities = []
      · exact ⟨(pathStr cf.path, 100), ⟨cf, hcf, by rw [if_pos hne]⟩, hp⟩
      · exact ⟨(pathStr cf.path, coverageValue cf (documentedNames links)),
          ⟨cf, hcf, by rw [if_neg hne]⟩, hp⟩

/-! ## Claim C10: documentation clusters -/

/-- Model of graph.py `_file_node_id` (line 19): the delimiter is the pipe
character. -/
def fileNodeId (path : String) : String := "file|" ++ path

/-- Model of graph.py `_entity_node_id`. -/
def entityNodeId (qn : String) : String := "entity|" ++ qn

/-- Model of graph.py `_reference_node_id`. -/
def refNodeId (file : String) (line : Nat) (text : String) : String :=
  "ref|" ++ file ++ "|" ++ toString line ++ "|" ++ text

/-- Node ids of a DocumentationGraph built through `add_code_file` and
`add_doc_file` (graph.py lines 54-115); `add_link` adds no nodes. -/
def graphNodeIds (cfs : List CodeFile) (dfs : List DocFile) : List String :=
  cfs.flatMap (fun cf =>
    fileNodeId (pathStr cf.path) ::
      cf.entities.map (fun e => entityNodeId (qualified_name e))) ++
  dfs.flatMap (fun df =>
    fileNodeId (pathStr df.path) ::
      df.references.map (fun r =>
        refNodeId (pathStr r.location.file) r.location.line_start (clean_text r)))

/-- Model of Python `node.replace("file:", "")` via split and rejoin. -/
def removeFileColon (n : String) : String :=
  String.intercalate "" (n.splitOn "file:")

/-- Model of analyzer.py `find_documentation_clusters` (lines 260-293)
applied to the connected components of the graph: keep the nodes starting
with "file:", strip that text, drop empty groups, sort each cluster and
sort clusters by descending size. -/
def findDocumentationClusters (components : List (List String)) :
    List (List String) :=
  List.mergeSort
    (components.filterMap (fun comp =>
      (fun files => if files = [] then none
        else some (List.mergeSort files (fun a b => decide (a ≤ b))))
      ((comp.filter (fun n => strStartsWith n "file:")).map removeFileColon)))
    (fun a b => decide (b.length ≤ a.length))

theorem startsWith_fileColon_false_of_head (s : String)
    (h : s.data.head? ≠ some 'f') : strStartsWith s "file:" = false := by
  unfold strStartsWith
  have h1 : ("file:" : String).data = 'f' :: ['i', 'l', 'e', ':'] := by decide
  rw [h1]
  cases hd : s.data with
  | nil => simp [List.isPrefixOf]
  | cons a as =>
    have ha : a ≠ 'f' := by
      intro heq
      exact h (by rw [hd, heq]; rfl)
    simp only [List.isPrefixOf, beq_iff_eq]
    simp [Ne.symm ha]

theorem fileId_not_colon (p : String) : strStartsWith (fileNodeId p) "file:" = false := by
  unfold fileNodeId strStartsWith
  rw [String.data_append]
  have h1 : ("file:" : String).data = ['f', 'i', 'l', 'e', ':'] := by decide
  have h2 : ("file|" : String).data = ['f', 'i', 'l', 'e', '|'] := by decide
  rw [h1, h2]
  simp [List.isPrefixOf, beq_iff_eq]

theorem entityId_not_colon (q : String) :
    strStartsWith (entityNodeId q) "file:" = false := by
  apply startsWith_fileColon_false_of_head
  unfold entityNodeId
  rw [String.data_append]
  have h2 : ("entity|" : String).data = 'e' :: ['n', 't', 'i', 't', 'y', '|'] := by decide
  rw [h2]
  simp

theorem refId_not_colon (f : String) (line : Nat) (t : String) :
    strStartsWith (refNodeId f line t) "file:" = false := by
  apply startsWith_fileColon_false_of_head
  unfold refNodeId
  simp only [String.data_append]
  simp

theorem graphNodeIds_not_fileColon {cfs : List CodeFile} {dfs : List DocFile}
    {n : String} (h : n ∈ graphNodeIds cfs dfs) : strStartsWith n "file:" = false := by
  unfold graphNodeIds at h
  rcases List.mem_append.mp h with h | h <;>
    obtain ⟨x, _, hn⟩ := List.mem_flatMap.mp h
  · rcases List.mem_cons.mp hn with rfl | hn
    · exact fileId_not_colon _
    · obtain ⟨e, _, rfl⟩ := List.mem_map.mp hn
      exact entityId_not_colon _
  · rcases List.mem_cons.mp hn with rfl | hn
    · exact fileId_not_colon _
    · obtain ⟨r, _, rfl⟩ := List.mem_map.mp hn
      exact refId_not_colon _ _ _

/-- C10: find_documentation_clusters filters graph nodes by the text
"file:" while every node id the graph ever creates uses the pipe delimiter
("file|…", "entity|…", "ref|…"), so on any connected components drawn from
a graph built from code and doc files the result is always the empty
list. -/
theorem find_documentation_clusters_empty (cfs : List CodeFile)
    (dfs : List DocFile) (components : List (List String))
    (hsub : ∀ comp ∈ components, ∀ n ∈ comp, n ∈ graphNodeIds cfs dfs) :
    findDocumentationClusters components = [] := by
  unfold findDocumentationClusters
  have hfm : components.filterMap (fun comp =>
      (fun files => if files = [] then none
        else some (List.mergeSort files (fun a b => decide (a ≤ b))))
      ((comp.filter (fun n => strStartsWith n "file:")).map removeFileColon)) = [] := by
    apply List.filterMap_eq_nil_iff.mpr
    intro comp hcomp
    have hfilter : comp.filter (fun n => strStartsWith n "file:") = [] := by
      apply List.filter_eq_nil_iff.mpr
      intro n hn
      rw [graphNodeIds_not_fileColon (hsub comp hcomp n hn)]
      simp
    rw [hfilter]
    simp
  rw [hfm]
  simp

/-- Files and components used to witness C10. -/
def cTenFile : CodeFile := { path := ⟨false, ["a.py"]⟩, language := .python }

def cTenComponents : List (List String) := [[fileNodeId "a.py"]]

theorem find_documentation_clusters_empty_witness :
    (∀ comp ∈ cTenComponents, ∀ n ∈ comp, n ∈ graphNodeIds [cTenFile] []) ∧
    findDocumentationClusters cTenComponents = [] :=
  ⟨by decide, find_documentation_clusters_empty [cTenFile] [] cTenComponents (by decide)⟩

/-! ## Claim C7: entity-level change detection (git/tracker.py) -/

/-- Model of tracker.py `ChangeType`. -/
inductive ChangeType where
  | ADDED | DELETED | SIGNATURE_CHANGED | DOCSTRING_CHANGED | BODY_CHANGED
deriving DecidableEq, Repr

/-- Model of tracker.py `EntitySnapshot`. -/
structure EntitySnapshot where
  signature : Option String
  docstring : Option String
  entity_type : EntityType
deriving DecidableEq, Repr

/-- Model of tracker.py `EntityChange`. -/
structure EntityChange where
  entity_name : String
  entity_type : EntityType
  file_path : String
  change_type : ChangeType
  old_signature : Option String := none
  new_signature : Option String := none
  old_docstring : Option String := none
  new_docstring : Option String := none
deriving DecidableEq, Repr

/-- Snapshot key: `parent + "." + name` when the entity has a parent, else
the bare name (tracker.py lines 412, 422). -/
def snapKey (e : CodeEntity) : String :=
  match e.parent with
  | some par => par ++ "." ++ e.name
  | none => e.name

def snapOf (e : CodeEntity) : EntitySnapshot :=
  { signature := e.signature, docstring := e.docstring, entity_type := e.entity_type }

/-- Python dict assignment `d[k] = v`: overwrite in place, else append. -/
def insertSnap (m : List (String × EntitySnapshot)) (k : String)
    (v : EntitySnapshot) : List (String × EntitySnapshot) :=
  if m.any (fun kv => kv.1 == k) then
    m.map (fun kv => if kv.1 == k then (k, v) else kv)
  else m ++ [(k, v)]

/-- Model of the snapshot-building loops (tracker.py lines 409-427). -/
def buildSnapshots (ents : List CodeEntity) : List (String × EntitySnapshot) :=
  ents.foldl (fun m e => insertSnap m (snapKey e) (snapOf e)) []

def lookupSnap (m : List (String × EntitySnapshot)) (k : String) :
    Option EntitySnapshot :=
  (m.find? (fun kv => kv.1 == k)).map (fun kv => kv.2)

def mkAdded (fp k : String) (n : EntitySnapshot) : EntityChange :=
  { entity_name := k, entity_type := n.entity_type, file_path := fp
    change_type := .ADDED, new_signature := n.signature, new_docstring := n.docstring }

def mkDeleted (fp k : String) (o : EntitySnapshot) : EntityChange :=
  { entity_name := k, entity_type := o.entity_type, file_path := fp
    change_type := .DELETED, old_signature := o.signature, old_docstring := o.docstring }

def mkSigChange (fp k : String) (o n : EntitySnapshot) : EntityChange :=
  { entity_name := k, entity_type := n.entity_type, file_path := fp
    change_type := .SIGNATURE_CHANGED
    old_signature := o.signature, new_signature := n.signature }

def mkDocChange (fp k : String) (o n : EntitySnapshot) : EntityChange :=
  { entity_name := k, entity_type := n.entity_type, file_path := fp
    change_type := .DOCSTRING_CHANGED
    old_docstring := o.docstring, new_docstring := n.docstring }

/-- Keys present in both snapshots (`old_names & new_names`; the Python set
intersection is modelled as a list used only through membership). -/
def sharedSnapKeys (old new : List (String × EntitySnapshot)) : List String :=
  (old.map Prod.fst).filter (fun k => (new.map Prod.fst).contains k)

/-- Model of tracker.py `_compare_python_entities` comparison phase (lines
429-483) on the two snapshot maps: added keys, deleted keys, then for each
shared key an independent SIGNATURE_CHANGED and DOCSTRING_CHANGED record.
The Python code iterates sets; the model iterates lists, which produces
the same records (membership-wise) when the snapshot keys are nodup. -/
def comparePythonEntities (fp : String)
    (old new : List (String × EntitySnapshot)) : List EntityChange :=
  (new.filter (fun kv => !(old.map Prod.fst).contains kv.1)).map
    (fun kv => mkAdded fp kv.1 kv.2) ++
  (old.filter (fun kv => !(new.map Prod.fst).contains kv.1)).map
    (fun kv => mkDeleted fp kv.1 kv.2) ++
  (sharedSnapKeys old new).flatMap (fun k =>
    match lookupSnap old k, lookupSnap new k with
    | some o, some n =>
      (if o.signature ≠ n.signature then [mkSigChange fp k o n] else []) ++
      (if o.docstring ≠ n.docstring then [mkDocChange fp k o n] else [])
    | _, _ => [])

theorem lookupSnap_eq_some (m : List (String × EntitySnapshot)) (k : String)
    (v : EntitySnapshot) (hnd : (m.map Prod.fst).Nodup) (h : (k, v) ∈ m) :
    lookupSnap m k = some v := by
  induction m with
  | nil => simp at h
  | cons kv rest ih =>
    rw [List.map_cons, List.nodup_cons] at hnd
    unfold lookupSnap
    rcases List.mem_cons.mp h with heq | hmem
    · rw [← heq]
      rw [List.find?_cons_of_pos _ (by simp)]
      rfl
    · have hne : kv.1 ≠ k := by
        intro hkk
        exact hnd.1 (hkk ▸ List.mem_map.mpr ⟨(k, v), hmem, rfl⟩)
      rw [List.find?_cons_of_neg _ (by simp [hne])]
      have := ih hnd.2 hmem
      unfold lookupSnap at this
      exact this

theorem mem_sharedSnapKeys (old new : List (String × EntitySnapshot))
    (k : String) : k ∈ sharedSnapKeys old new ↔
      k ∈ old.map Prod.fst ∧ k ∈ new.map Prod.fst := by
  unfold sharedSnapKeys
  rw [List.mem_filter]
  constructor
  · rintro ⟨h1, h2⟩
    exact ⟨h1, List.elem_iff.mp h2⟩
  · rintro ⟨h1, h2⟩
    exact ⟨h1, List.elem_iff.mpr h2⟩

theorem mem_modified_cases {fp : String} {old new : List (String × EntitySnapshot)}
    {ch : EntityChange}
    (hch : ch ∈ (sharedSnapKeys old new).flatMap (fun k =>
      match lookupSnap old k, lookupSnap new k with
      | some o, some n =>
        (if o.signature ≠ n.signature then [mkSigChange fp k o n] else []) ++
        (if o.docstring ≠ n.docstring then [mkDocChange fp k o n] else [])
      | _, _ => [])) :
    ∃ k o n, lookupSnap old k = some o ∧ lookupSnap new k = some n ∧
      ((ch = mkSigChange fp k o n ∧ o.signature ≠ n.signature) ∨
       (ch = mkDocChange fp k o n ∧ o.docstring ≠ n.docstring)) := by
  obtain ⟨k, _, hmem⟩ := List.mem_flatMap.mp hch
  cases ho : lookupSnap old k <;> cases hn : lookupSnap new k <;>
    rw [ho, hn] at hmem
  case none.none => simp at hmem
  case none.some => simp at hmem
  case some.none => simp at hmem
  case some.some o n =>
    refine ⟨k, o, n, ho, hn, ?_⟩
    rcases List.mem_append.mp hmem with hs | hd
    · split at hs
      · exact Or.inl ⟨List.mem_singleton.mp hs, by assumption⟩
      · simp at hs
    · split at hd
      · exact Or.inr ⟨List.mem_singleton.mp hd, by assumption⟩
      · simp at hd

/-- C7: for every pair of entity snapshots of a changed Python file and
every key present in both, a differing signature yields the
SIGNATURE_CHANGED record and a differing docstring independently yields
the DOCSTRING_CHANGED record (one entity may yield both), while an entity
whose signature and docstring are both unchanged yields no record at
all. -/
theorem entity_diff_independent (fp : String)
    (old new : List (String × EntitySnapshot)) (k : String)
    (so sn : EntitySnapshot)
    (hold : (old.map Prod.fst).Nodup) (hnew : (new.map Prod.fst).Nodup)
    (hin_o : (k, so) ∈ old) (hin_n : (k, sn) ∈ new) :
    ((so.signature ≠ sn.signature) ↔
      mkSigChange fp k so sn ∈ comparePythonEntities fp old new) ∧
    ((so.docstring ≠ sn.docstring) ↔
      mkDocChange fp k so sn ∈ comparePythonEntities fp old new) ∧
    (so.signature = sn.signature → so.docstring = sn.docstring →
      ∀ ch ∈ comparePythonEntities fp old new, ch.entity_name ≠ k) := by
  have hko : k ∈ old.map Prod.fst := List.mem_map.mpr ⟨(k, so), hin_o, rfl⟩
  have hkn : k ∈ new.map Prod.fst := List.mem_map.mpr ⟨(k, sn), hin_n, rfl⟩
  have hks : k ∈ sharedSnapKeys old new := (mem_sharedSnapKeys _ _ _).mpr ⟨hko, hkn⟩
  have hlo : lookupSnap old k = some so := lookupSnap_eq_some _ _ _ hold hin_o
  have hln : lookupSnap new k = some sn := lookupSnap_eq_some _ _ _ hnew hin_n
  have hfwd : ∀ rec ∈ ((if so.signature ≠ sn.signature then
        [mkSigChange fp k so sn] else []) ++
      (if so.docstring ≠ sn.docstring then [mkDocChange fp k so sn] else [])),
      rec ∈ comparePythonEntities fp old new := by
    intro rec hrec
    unfold comparePythonEntities
    refine List.mem_append.mpr (Or.inr ?_)
    apply List.mem_flatMap.mpr
    refine ⟨k, hks, ?_⟩
    rw [hlo, hln]
    exact hrec
  have hadded : ∀ ch ∈ (new.filter
        (fun kv => !(old.map Prod.fst).contains kv.1)).map
        (fun kv => mkAdded fp kv.1 kv.2),
      ch.change_type = ChangeType.ADDED ∧ ch.entity_name ∉ old.map Prod.fst := by
    intro ch hch
    obtain ⟨kv, hkv, rfl⟩ := List.mem_map.mp hch
    have h2 := (List.mem_filter.mp hkv).2
    rw [Bool.not_eq_true'] at h2
    refine ⟨rfl, ?_⟩
    intro hmem
    have h3 : (old.map Prod.fst).contains kv.1 = true := List.elem_iff.mpr hmem
    rw [h3] at h2
    exact Bool.true_eq_false.mp h2
  have hdeleted : ∀ ch ∈ (old.filter
        (fun kv => !(new.map Prod.fst).contains kv.1)).map
        (fun kv => mkDeleted fp kv.1 kv.2),
      ch.change_type = ChangeType.DELETED ∧ ch.entity_name ∉ new.map Prod.fst := by
    intro ch hch
    obtain ⟨kv, hkv, rfl⟩ := List.mem_map.mp hch
    have h2 := (List.mem_filter.mp hkv).2
    rw [Bool.not_eq_true'] at h2
    refine ⟨rfl, ?_⟩
    intro hmem
    have h3 : (new.map Prod.fst).contains kv.1 = true := List.elem_iff.mpr hmem
    rw [h3] at h2
    exact Bool.true_eq_false.mp h2
  refine ⟨⟨?_, ?_⟩, ⟨?_, ?_⟩, ?_⟩
  · intro hne
    apply hfwd
    apply List.mem_append.mpr (Or.inl ?_)
    rw [if_pos hne]
    exact List.mem_singleton.mpr rfl
  · intro hmem
    unfold comparePythonEntities at hmem
    rcases List.mem_append.mp hmem with h12 | h3
    · rcases List.mem_append.mp h12 with h1 | h2
      · have := (hadded _ h1).1
        simp [mkSigChange] at this
      · have := (hdeleted _ h2).1
        simp [mkSigChange] at this
    · obtain ⟨k', o, n, ho, hn, hcase⟩ := mem_modified_cases h3
      rcases hcase with ⟨heq, hone⟩ | ⟨heq, hone⟩
      · have hkk : k = k' := congrArg EntityChange.entity_name heq
        subst hkk
        rw [hlo] at ho
        rw [hln] at hn
        rw [Option.some_inj.mp ho, Option.some_inj.mp hn]
        exact hone
      · have : ChangeType.SIGNATURE_CHANGED = ChangeType.DOCSTRING_CHANGED :=
          congrArg EntityChange.change_type heq
        exact absurd this (by decide)
  · intro hne
    apply hfwd
    apply List.mem_append.mpr (Or.inr ?_)
    rw [if_pos hne]
    exact List.mem_singleton.mpr rfl
  · intro hmem
    unfold comparePythonEntities at hmem
    rcases List.mem_append.mp hmem with h12 | h3
    · rcases List.mem_append.mp h12 with h1 | h2
      · have := (hadded _ h1).1
        simp [mkDocChange] at this
      · have := (hdeleted _ h2).1
        simp [mkDocChange] at this
    · obtain ⟨k', o, n, ho, hn, hcase⟩ := mem_modified_cases h3
      rcases hcase with ⟨heq, hone⟩ | ⟨heq, hone⟩
      · have : ChangeType.DOCSTRING_CHANGED = ChangeType.SIGNATURE_CHANGED :=
          congrArg EntityChange.change_type heq
        exact absurd this (by decide)
      · have hkk : k = k' := congrArg EntityChange.entity_name heq
        subst hkk
        rw [hlo] at ho
        rw [hln] at hn
        rw [Option.some_inj.mp ho, Option.some_inj.mp hn]
        exact hone
  · intro hsig hdoc ch hch hname
    unfold comparePythonEntities at hch
    rcases List.mem_append.mp hch with h12 | h3
    · rcases List.mem_append.mp h12 with h1 | h2
      · exact (hadded _ h1).2 (hname ▸ hko)
      · exact (hdeleted _ h2).2 (hname ▸ hkn)
    · obtain ⟨k', o, n, ho, hn, hcase⟩ := mem_modified_cases h3
      rcases hcase with ⟨heq, hone⟩ | ⟨heq, hone⟩
      · have hkk : k' = k := by
          rw [heq] at hname
          exact hname
        subst hkk
        rw [hlo] at ho
        rw [hln] at hn
        rw [← Option.some_inj.mp ho, ← Option.some_inj.mp hn] at hone
        exact hone hsig
      · have hkk : k' = k := by
          rw [heq] at hname
          exact hname
        subst hkk
        rw [hlo] at ho
        rw [hln] at hn
        rw [← Option.some_inj.mp ho, ← Option.some_inj.mp hn] at hone
        exact hone hdoc

/-- Snapshots used to witness C7 (spec scenario 5: a signature change to
greet and a docstring change to farewell). -/
def cSevenOldGreet : EntitySnapshot :=
  { signature := some "def greet(name)", docstring := some "Say hello"
    entity_type := .function }

def cSevenNewGreet : EntitySnapshot :=
  { signature := some "def greet(name, formal=False)", docstring := some "Say hello"
    entity_type := .function }

def cSevenOld : List (String × EntitySnapshot) :=
  [("greet", cSevenOldGreet),
   ("farewell", { signature := some "def farewell()", docstring := some "Old doc"
                  entity_type := .function })]

def cSevenNew : List (String × EntitySnapshot) :=
  [("greet", cSevenNewGreet),
   ("farewell", { signature := some "def farewell()", docstring := some "New doc"
                  entity_type := .function })]

theorem entity_diff_independent_witness :
    ((cSevenOld.map Prod.fst).Nodup ∧ (cSevenNew.map Prod.fst).Nodup ∧
      ("greet", cSevenOldGreet) ∈ cSevenOld ∧ ("greet", cSevenNewGreet) ∈ cSevenNew) ∧
    mkSigChange "app.py" "greet" cSevenOldGreet cSevenNewGreet ∈
      comparePythonEntities "app.py" cSevenOld cSevenNew := by
  refine ⟨⟨by decide, by decide, by decide, by decide⟩, ?_⟩
  exact (entity_diff_independent "app.py" cSevenOld cSevenNew "greet"
    cSevenOldGreet cSevenNewGreet (by decide) (by decide) (by decide)
    (by decide)).1.mp (by decide)

/-! ## Serialization dictionaries (models.py `to_dict` / `from_dict`) -/

/-- Dictionary form of a Location (`Location.to_dict`): the Path is stored
as `str(path)`. -/
structure LocationDict where
  file : String
  line_start : Nat
  line_end : Option Nat
deriving DecidableEq, Repr

/-- Model of `Location.to_dict` (models.py lines 151-157). -/
def Location.to_dict (loc : Location) : LocationDict :=
  { file := pathStr loc.file, line_start := loc.line_start, line_end := loc.line_end }

/-- Model of `Location.from_dict` (models.py lines 159-166). -/
def Location.from_dict (d : LocationDict) : Location :=
  { file := parsePath d.file, line_start := d.line_start, line_end := d.line_end }

/-- Dictionary form of a CodeEntity; `type_` renders the Python dict key
"type", and the extra `qualified_name` key emitted by to_dict is ignored
by from_dict. -/
structure CodeEntityDict where
  name : String
  type_ : String
  location : LocationDict
  signature : Option String
  docstring : Option String
  parent : Option String
  qualified_name : String
deriving DecidableEq, Repr

/-- Model of `CodeEntity.to_dict` (models.py lines 246-256). -/
def CodeEntity.to_dict (e : CodeEntity) : CodeEntityDict :=
  { name := e.name, type_ := entityTypeValue e.entity_type
    location := Location.to_dict e.location, signature := e.signature
    docstring := e.docstring, parent := e.parent
    qualified_name := qualified_name e }

/-- Model of `CodeEntity.from_dict` (models.py lines 258-268); an unknown
enum value raises, modelled by `none`. -/
def CodeEntity.from_dict (d : CodeEntityDict) : Option CodeEntity :=
  match entityTypeFromValue d.type_ with
  | some et =>
    some
      { name := d.name, entity_type := et
        location := Location.from_dict d.location, signature := d.signature
        docstring := d.docstring, parent := d.parent }
  | none => none

/-- Dictionary form of a DocReference; the extra `clean_text` key emitted
by to_dict is ignored by from_dict. -/
structure DocReferenceDict where
  text : String
  clean_text : String
  location : LocationDict
  type_ : String
  context : Option String
deriving DecidableEq, Repr

/-- Model of `DocReference.to_dict` (models.py lines 287-295). -/
def DocReference.to_dict (r : DocReference) : DocReferenceDict :=
  { text := r.text, clean_text := clean_text r
    location := Location.to_dict r.location
    type_ := referenceTypeValue r.reference_type, context := r.context }

/-- Model of `DocReference.from_dict` (models.py lines 297-305). -/
def DocReference.from_dict (d : DocReferenceDict) : Option DocReference :=
  match referenceTypeFromValue d.type_ with
  | some rt =>
    some
      { text := d.text, location := Location.from_dict d.location
        reference_type := rt, context := d.context }
  | none => none

/-- Dictionary form of a CodeDocLink. -/
structure CodeDocLinkDict where
  entity : CodeEntityDict
  reference : DocReferenceDict
  link_type : String
  confidence : ℚ
deriving DecidableEq, Repr

/-- Model of `CodeDocLink.to_dict` (models.py lines 319-326). -/
def CodeDocLink.to_dict (l : CodeDocLink) : CodeDocLinkDict :=
  { entity := CodeEntity.to_dict l.entity
    reference := DocReference.to_dict l.reference
    link_type := linkTypeValue l.link_type, confidence := l.confidence }

/-- Model of `CodeDocLink.from_dict` (models.py lines 328-336). -/
def CodeDocLink.from_dict (d : CodeDocLinkDict) : Option CodeDocLink :=
  match CodeEntity.from_dict d.entity, DocReference.from_dict d.reference,
      linkTypeFromValue d.link_type with
  | some e, some r, some lt =>
    some { entity := e, reference := r, link_type := lt, confidence := d.confidence }
  | _, _, _ => none

/-- Option-valued traversal of a list (a Python list comprehension whose
element conversion may raise). -/
def mapMOpt (f : α → Option β) : List α → Option (List β)
  | [] => some []
  | x :: xs =>
    match f x, mapMOpt f xs with
    | some y, some ys => some (y :: ys)
    | _, _ => none

/-- Dictionary form of a CodeFile. -/
structure CodeFileDict where
  path : String
  language : String
  entities : List CodeEntityDict
  imports : List String
deriving DecidableEq, Repr

/-- Model of `CodeFile.to_dict` (models.py lines 372-379). -/
def CodeFile.to_dict (cf : CodeFile) : CodeFileDict :=
  { path := pathStr cf.path, language := languageValue cf.language
    entities := cf.entities.map CodeEntity.to_dict, imports := cf.imports }

/-- Model of `CodeFile.from_dict` (models.py lines 381-389). -/
def CodeFile.from_dict (d : CodeFileDict) : Option CodeFile :=
  match languageFromValue d.language, mapMOpt CodeEntity.from_dict d.entities with
  | some lang, some ents =>
    some { path := parsePath d.path, language := lang
           entities := ents, imports := d.imports }
  | _, _ => none

/-- Dictionary form of a DocFile. -/
structure DocFileDict where
  path : String
  format : String
  title : Option String
  references : List DocReferenceDict
  headers : List HeaderInfo
deriving DecidableEq, Repr

/-- Model of `DocFile.to_dict` (models.py lines 409-417). -/
def DocFile.to_dict (df : DocFile) : DocFileDict :=
  { path := pathStr df.path, format := docFormatValue df.format
    title := df.title, references := df.references.map DocReference.to_dict
    headers := df.headers }

/-- Model of `DocFile.from_dict` (models.py lines 419-428). -/
def DocFile.from_dict (d : DocFileDict) : Option DocFile :=
  match docFormatFromValue d.format, mapMOpt DocReference.from_dict d.references with
  | some fmt, some refs =>
    some { path := parsePath d.path, format := fmt, title := d.title
           references := refs, headers := d.headers }
  | _, _ => none

/-! ## Claim C8: dictionary round-trips -/

theorem entityTypeValue_round (et : EntityType) :
    entityTypeFromValue (entityTypeValue et) = some et := by
  cases et <;> rfl

theorem referenceTypeValue_round (rt : ReferenceType) :
    referenceTypeFromValue (referenceTypeValue rt) = some rt := by
  cases rt <;> rfl

theorem linkTypeValue_round (lt : LinkType) :
    linkTypeFromValue (linkTypeValue lt) = some lt := by
  cases lt <;> rfl

theorem languageValue_round (lang : Language) :
    languageFromValue (languageValue lang) = some lang := by
  cases lang <;> rfl

theorem docFormatValue_round (fmt : DocFormat) :
    docFormatFromValue (docFormatValue fmt) = some fmt := by
  cases fmt <;> rfl

theorem Location_from_to (loc : Location) (h : WFPath loc.file) :
    Location.from_dict (Location.to_dict loc) = loc := by
  obtain ⟨f, ls, le⟩ := loc
  simp [Location.to_dict, Location.from_dict, parsePath_pathStr f h]

theorem CodeEntity_from_to (e : CodeEntity) (h : WFPath e.location.file) :
    CodeEntity.from_dict (CodeEntity.to_dict e) = some e := by
  obtain ⟨n, et, loc, sig, doc, par⟩ := e
  unfold CodeEntity.to_dict CodeEntity.from_dict
  simp only [entityTypeValue_round]
  rw [Location_from_to loc h]

theorem DocReference_from_to (r : DocReference) (h : WFPath r.location.file) :
    DocReference.from_dict (DocReference.to_dict r) = some r := by
  obtain ⟨t, loc, rt, ctx⟩ := r
  unfold DocReference.to_dict DocReference.from_dict
  simp only [referenceTypeValue_round]
  rw [Location_from_to loc h]

theorem CodeDocLink_from_to (l : CodeDocLink) (he : WFPath l.entity.location.file)
    (hr : WFPath l.reference.location.file) :
    CodeDocLink.from_dict (CodeDocLink.to_dict l) = some l := by
  obtain ⟨e, r, lt, conf⟩ := l
  unfold CodeDocLink.to_dict CodeDocLink.from_dict
  rw [CodeEntity_from_to e he, DocReference_from_to r hr]
  simp only [linkTypeValue_round]

theorem mapMOpt_round {α β : Type} (f : β → Option α) (g : α → β) (l : List α)
    (h : ∀ x ∈ l, f (g x) = some x) : mapMOpt f (l.map g) = some l := by
  induction l with
  | nil => rfl
  | cons x xs ih =>
    rw [List.map_cons]
    unfold mapMOpt
    rw [h x (List.mem_cons_self x xs), ih (fun y hy => h y (List.mem_cons_of_mem _ hy))]

theorem CodeFile_from_to (cf : CodeFile) (hp : WFPath cf.path)
    (he : ∀ e ∈ cf.entities, WFPath e.location.file) :
    CodeFile.from_dict (CodeFile.to_dict cf) = some cf := by
  obtain ⟨p, lang, ents, imps⟩ := cf
  unfold CodeFile.to_dict CodeFile.from_dict
  rw [mapMOpt_round CodeEntity.from_dict CodeEntity.to_dict ents
    (fun e hee => CodeEntity_from_to e (he e hee))]
  simp only [languageValue_round]
  rw [parsePath_pathStr p hp]

theorem DocFile_from_to (df : DocFile) (hp : WFPath df.path)
    (hr : ∀ r ∈ df.references, WFPath r.location.file) :
    DocFile.from_dict (DocFile.to_dict df) = some df := by
  obtain ⟨p, fmt, title, refs, hdrs⟩ := df
  unfold DocFile.to_dict DocFile.from_dict
  rw [mapMOpt_round DocReference.from_dict DocReference.to_dict refs
    (fun r hrr => DocReference_from_to r (hr r hrr))]
  simp only [docFormatValue_round]
  rw [parsePath_pathStr p hp]

/-- C8: reconstructing each model value from its dictionary form yields the
original value, for Location, CodeEntity, DocReference, CodeDocLink,
CodeFile and DocFile.  The WFPath hypotheses encode the pathlib invariant
(path components are nonempty, are not ".", and contain no slash), which
every Python Path object satisfies by construction. -/
theorem to_from_dict_round :
    (∀ loc : Location, WFPath loc.file →
      Location.from_dict (Location.to_dict loc) = loc) ∧
    (∀ e : CodeEntity, WFPath e.location.file →
      CodeEntity.from_dict (CodeEntity.to_dict e) = some e) ∧
    (∀ r : DocReference, WFPath r.location.file →
      DocReference.from_dict (DocReference.to_dict r) = some r) ∧
    (∀ l : CodeDocLink, WFPath l.entity.location.file →
      WFPath l.reference.location.file →
      CodeDocLink.from_dict (CodeDocLink.to_dict l) = some l) ∧
    (∀ cf : CodeFile, WFPath cf.path →
      (∀ e ∈ cf.entities, WFPath e.location.file) →
      CodeFile.from_dict (CodeFile.to_dict cf) = some cf) ∧
    (∀ df : DocFile, WFPath df.path →
      (∀ r ∈ df.references, WFPath r.location.file) →
      DocFile.from_dict (DocFile.to_dict df) = some df) :=
  ⟨Location_from_to, CodeEntity_from_to, DocReference_from_to,
   CodeDocLink_from_to, CodeFile_from_to, DocFile_from_to⟩

/-- Values used to witness C8. -/
def cEightLoc : Location := { file := ⟨false, ["pkg", "mod.py"]⟩, line_start := 3 }

def cEightEntity : CodeEntity :=
  { name := "helper", entity_type := .method, location := cEightLoc
    signature := some "def helper(self)", parent := some "Tool" }

def cEightRef : DocReference :=
  { text := "helper", location := { file := ⟨false, ["docs", "api.md"]⟩, line_start := 7 }
    reference_type := .header }

def cEightLink : CodeDocLink :=
  { entity := cEightEntity, reference := cEightRef
    link_type := .exact, confidence := 1 }

def cEightCodeFile : CodeFile :=
  { path := ⟨false, ["pkg", "mod.py"]⟩, language := .python
    entities := [cEightEntity], imports := ["os"] }

def cEightDocFile : DocFile :=
  { path := ⟨false, ["docs", "api.md"]⟩, format := .markdown
    title := some "API", references := [cEightRef]
    headers := [{ level := 1, text := "API", line := 1 }] }

theorem to_from_dict_round_witness :
    WFPath cEightLoc.file ∧
    Location.from_dict (Location.to_dict cEightLoc) = cEightLoc ∧
    CodeEntity.from_dict (CodeEntity.to_dict cEightEntity) = some cEightEntity ∧
    DocReference.from_dict (DocReference.to_dict cEightRef) = some cEightRef ∧
    CodeDocLink.from_dict (CodeDocLink.to_dict cEightLink) = some cEightLink ∧
    CodeFile.from_dict (CodeFile.to_dict cEightCodeFile) = some cEightCodeFile ∧
    DocFile.from_dict (DocFile.to_dict cEightDocFile) = some cEightDocFile :=
  ⟨by decide,
   to_from_dict_round.1 cEightLoc (by decide),
   to_from_dict_round.2.1 cEightEntity (by decide),
   to_from_dict_round.2.2.1 cEightRef (by decide),
   to_from_dict_round.2.2.2.1 cEightLink (by decide) (by decide),
   to_from_dict_round.2.2.2.2.1 cEightCodeFile (by decide) (by decide),
   to_from_dict_round.2.2.2.2.2 cEightDocFile (by decide) (by decide)⟩

/-! ## Claims C2 and C9: serializer load (serializer.py) -/

/-- Parsed JSON analysis payload (the three collections serializer.load
walks; version and created_at play no role in loading). -/
structure AnalysisData where
  code_files : List CodeFileDict
  doc_files : List DocFileDict
  links : List CodeDocLinkDict
deriving DecidableEq, Repr

/-- The embedded file paths `_validate_paths_in_data` validates, in walk
order (serializer.py lines 62-99). -/
def embeddedPaths (d : AnalysisData) : List String :=
  d.code_files.flatMap (fun cf => cf.path :: cf.entities.map (fun e => e.location.file)) ++
  d.doc_files.flatMap (fun df => df.path :: df.references.map (fun r => r.location.file)) ++
  d.links.flatMap (fun l => [l.entity.location.file, l.reference.location.file])

/-- Lexical model of pathlib `resolve`: eliminate ".." segments (".."
above the root stays at the root). -/
def normComps (l : List String) : List String :=
  l.foldl (fun acc c => if c = ".." then acc.dropLast else acc.concat c) []

/-- Resolve a path against an (absolute) current working directory. -/
def resolveComps (cwd : List String) (p : PyPath) : List String :=
  normComps ((if p.absolute then [] else cwd) ++ p.comps)

/-- Model of serializer.py `_validate_path` (lines 26-59): parse the path
string, resolve it (relative paths against the base directory), resolve
the base directory, and require `resolved.relative_to(base_resolved)` to
succeed, i.e. the base components to be a prefix of the resolved
components.  Returns true when the path is accepted. -/
def validatePathOk (cwd : List String) (base : PyPath) (pstr : String) : Bool :=
  let p := parsePath pstr
  let baseRes := resolveComps cwd base
  let resolved :=
    if p.absolute then normComps p.comps
    else normComps (((if base.absolute then [] else cwd) ++ base.comps) ++ p.comps)
  baseRes.isPrefixOf resolved

/-- Model of `Path.parent`. -/
def parentPath (p : PyPath) : PyPath := ⟨p.absolute, p.comps.dropLast⟩

/-- Errors serializer.load can raise in the model. -/
inductive LoadError where
  | pathTraversal | valueError | attributeError
deriving DecidableEq, Repr

/-- State serializer.load rebuilds before calling `_init_components`:
the three collections plus the rebuilt `_entity_index` (serializer.py
lines 163-192; the graph rebuild adds no further analyzer state). -/
structure DocumentationAnalyzerState where
  code_files : List CodeFile
  doc_files : List DocFile
  links : List CodeDocLink
  entityIndex : List (String × List CodeEntity)
deriving DecidableEq, Repr

/-- One step of the `_entity_index` rebuild loop (serializer.py lines
183-186): create the bucket when absent, then append. -/
def indexInsert (idx : List (String × List CodeEntity)) (e : CodeEntity) :
    List (String × List CodeEntity) :=
  if idx.any (fun nv => nv.1 == e.name) then
    idx.map (fun nv => if nv.1 == e.name then (nv.1, nv.2 ++ [e]) else nv)
  else idx ++ [(e.name, [e])]

def buildEntityIndex (cfs : List CodeFile) : List (String × List CodeEntity) :=
  cfs.foldl (fun idx cf => cf.entities.foldl indexInsert idx) []

/-- Reconstruction phase of serializer.load (lines 166-178): any enum
value failure raises ValueError, modelled by `none`. -/
def reconstructState (d : AnalysisData) : Option DocumentationAnalyzerState :=
  match mapMOpt CodeFile.from_dict d.code_files,
      mapMOpt DocFile.from_dict d.doc_files,
      mapMOpt CodeDocLink.from_dict d.links with
  | some cfs, some dfs, some ls =>
    some { code_files := cfs, doc_files := dfs, links := ls
           entityIndex := buildEntityIndex cfs }
  | _, _, _ => none

/-- The method names class DocumentationAnalyzer defines (analyzer.py
lines 58-520); `_init_components`, which serializer.py line 195 calls, is
not among them, so Python raises AttributeError there. -/
def analyzerMethodNames : List String :=
  ["__init__", "analyze_directory", "_build_links", "_match_reference",
   "get_coverage_stats", "get_undocumented_entities", "get_broken_references",
   "get_links_for_entity", "get_links_for_doc", "get_coverage_by_file",
   "find_documentation_clusters", "get_priority_issues", "_calculate_priority",
   "_score_undocumented_entity", "_score_broken_reference", "_find_close_matches",
   "to_dict", "save", "load"]

/-- Model of `AnalysisSerializer.load` (serializer.py lines 131-197):
validate every embedded path against the effective base directory
(the caller-supplied one, defaulting to the JSON file's parent), rebuild
the state, then call `analyzer._init_components()` — an attribute
DocumentationAnalyzer does not define. -/
def AnalysisSerializer.load (cwd : List String) (filepath : PyPath)
    (base_dir : Option PyPath) (validate_paths : Bool) (d : AnalysisData) :
    Except LoadError DocumentationAnalyzerState :=
  if validate_paths ∧
      ¬ (embeddedPaths d).all (validatePathOk cwd (base_dir.getD (parentPath filepath))) then
    Except.error .pathTraversal
  else
    match reconstructState d with
    | none => Except.error .valueError
    | some st =>
      if analyzerMethodNames.contains "_init_components" then Except.ok st
      else Except.error .attributeError

/-- Saved analysis payload (serializer.py lines 110-129). -/
structure SavedAnalysis where
  version : String
  created_at : String
  data : AnalysisData
deriving DecidableEq, Repr

def ANALYSIS_FILE_VERSION : String := "1.0"

/-- Model of `AnalysisSerializer.save`: a total function — no path
validation happens on the save side, so PathTraversalError can only arise
at deserialization. -/
def AnalysisSerializer.save (created_at : String)
    (st : DocumentationAnalyzerState) : SavedAnalysis :=
  { version := ANALYSIS_FILE_VERSION, created_at := created_at
    data :=
      { code_files := st.code_files.map CodeFile.to_dict
        doc_files := st.doc_files.map DocFile.to_dict
        links := st.links.map CodeDocLink.to_dict } }

/-- C2: with path validation on (the default), loading raises
PathTraversalError exactly when some embedded file path, resolved against
the caller-supplied base directory (defaulting to the JSON file's parent),
is not contained in that base directory; the load is aborted (an error,
never a state, is returned), and the validator is invoked only by load. -/
theorem load_path_traversal_iff (cwd : List String) (filepath : PyPath)
    (base_dir : Option PyPath) (d : AnalysisData) :
    AnalysisSerializer.load cwd filepath base_dir true d =
        Except.error LoadError.pathTraversal ↔
      ∃ pstr ∈ embeddedPaths d,
        validatePathOk cwd (base_dir.getD (parentPath filepath)) pstr = false := by
  unfold AnalysisSerializer.load
  by_cases hall :
    (embeddedPaths d).all (validatePathOk cwd (base_dir.getD (parentPath filepath))) = true
  · rw [if_neg (by simp [hall])]
    constructor
    · intro h
      cases hrec : reconstructState d <;> rw [hrec] at h
      · simp at h
      · dsimp only at h
        rw [if_neg (by decide)] at h
        simp at h
    · rintro ⟨p, hp, hv⟩
      have := List.all_eq_true.mp hall p hp
      rw [hv] at this
      exact absurd this (by decide)
  · rw [if_pos ⟨rfl, hall⟩]
    simp only [List.all_eq_true] at hall
    push_neg at hall
    obtain ⟨p, hp, hv⟩ := hall
    exact ⟨fun _ => ⟨p, hp, Bool.not_eq_true _ ▸ Bool.eq_false_iff.mpr hv⟩, fun _ => rfl⟩

/-- C9: whenever the payload parses (reconstruction succeeds) and every
embedded path passes validation, AnalysisSerializer.load raises
AttributeError because it ends by calling analyzer._init_components(),
which DocumentationAnalyzer does not define; consequently load never
returns an analyzer at all. -/
theorem load_raises_attribute_error :
    (∀ (cwd : List String) (filepath : PyPath) (base_dir : Option PyPath)
      (d : AnalysisData) (st : DocumentationAnalyzerState),
      (embeddedPaths d).all (validatePathOk cwd (base_dir.getD (parentPath filepath))) =
        true →
      reconstructState d = some st →
      AnalysisSerializer.load cwd filepath base_dir true d =
        Except.error LoadError.attributeError) ∧
    (∀ (cwd : List String) (filepath : PyPath) (base_dir : Option PyPath)
      (validate_paths : Bool) (d : AnalysisData) (st : DocumentationAnalyzerState),
      AnalysisSerializer.load cwd filepath base_dir validate_paths d ≠ Except.ok st) := by
  constructor
  · intro cwd filepath base_dir d st hall hrec
    unfold AnalysisSerializer.load
    rw [if_neg (by simp [hall]), hrec]
    dsimp only
    rw [if_neg (by decide)]
  · intro cwd filepath base_dir validate_paths d st
    unfold AnalysisSerializer.load
    split
    · simp
    · cases hrec : reconstructState d
      · simp
      · dsimp only
        rw [if_neg (by decide)]
        simp

/-- Data used to witness C9: the empty payload. -/
def cNineData : AnalysisData := { code_files := [], doc_files := [], links := [] }

def cNineFilePath : PyPath := ⟨true, ["tmp", "analysis.json"]⟩

def cNineState : DocumentationAnalyzerState :=
  { code_files := [], doc_files := [], links := [], entityIndex := [] }

theorem load_raises_attribute_error_witness :
    ((embeddedPaths cNineData).all
      (validatePathOk [] ((none : Option PyPath).getD (parentPath cNineFilePath))) = true) ∧
    reconstructState cNineData = some cNineState ∧
    AnalysisSerializer.load [] cNineFilePath none true cNineData =
      Except.error LoadError.attributeError :=
  ⟨by decide, by decide,
   load_raises_attribute_error.1 [] cNineFilePath none cNineData cNineState
     (by decide) (by decide)⟩
